import Mathlib

/-!
Verification of the formHandler Cloudflare-Worker repository.

Strings are modelled as `List Char` (JS strings are sequences of code
units; all inputs of interest here are plain characters).  Each definition
is a direct translation of the corresponding JavaScript function; the file
name of the source is given in the doc comment of each definition.
-/

namespace FormHandler

/-- Code points matched by the JavaScript `\s` character class (and removed
by `String.prototype.trim`). -/
def jsWsCodes : List Nat :=
  [9, 10, 11, 12, 13, 32, 160, 5760,
   8192, 8193, 8194, 8195, 8196, 8197, 8198, 8199, 8200, 8201, 8202,
   8232, 8233, 8239, 8287, 12288, 65279]

/-- Whether a character is JavaScript whitespace. -/
def isJsWs (c : Char) : Bool := jsWsCodes.contains c.toNat

/-- The double-quote character. -/
def quotChar : Char := Char.ofNat 34

/-- The apostrophe character. -/
def aposChar : Char := Char.ofNat 39

/-- The characters HTML-entity-encoded by `FormValidator.sanitizeString`
(src/utils/validator.js, the regex `/[&<>"']/g`). -/
def isHtmlSpecial (c : Char) : Bool :=
  c == '&' || c == '<' || c == '>' || c == quotChar || c == aposChar

/-- Entity encoding of one character, from the `htmlEntities` map of
`FormValidator.sanitizeString`. -/
def encodeEntity (c : Char) : List Char :=
  if c = '&' then ( "&amp;" ).data
  else if c = '<' then ( "&lt;" ).data
  else if c = '>' then ( "&gt;" ).data
  else if c = quotChar then ( "&quot;" ).data
  else if c = aposChar then ( "&#39;" ).data
  else [c]

/-- The global regex replace `/[&<>"']/g` of `sanitizeString`. -/
def encodeEntities (s : List Char) : List Char := (s.map encodeEntity).flatten

/-- The null byte removed by `sanitizeString` (`/\0/g`). -/
def isNullChar (c : Char) : Bool := c.toNat == 0

/-- The control characters removed by `sanitizeString`
(`/[\x00-\x08\x0B\x0C\x0E-\x1F\x7F]/g`). -/
def isStrippedCtl (c : Char) : Bool :=
  decide (c.toNat ≤ 8) || c.toNat == 11 || c.toNat == 12 ||
  decide (14 ≤ c.toNat ∧ c.toNat ≤ 31) || c.toNat == 127

/-- Leading-whitespace removal, first half of `String.prototype.trim`. -/
def dropLeadWs (s : List Char) : List Char := s.dropWhile (fun c => isJsWs c)

/-- Trailing-whitespace removal, second half of `String.prototype.trim`. -/
def dropTrailWs (s : List Char) : List Char :=
  (s.reverse.dropWhile (fun c => isJsWs c)).reverse

/-- JavaScript `String.prototype.trim`. -/
def jsTrim (s : List Char) : List Char := dropTrailWs (dropLeadWs s)

/-- The whitespace-collapsing replace `/\s+/g, ' '` of `sanitizeString`:
every maximal run of whitespace becomes one space. -/
def collapseWs : List Char → List Char
  | [] => []
  | [c] => if isJsWs c then [' '] else [c]
  | c1 :: c2 :: rest =>
    if isJsWs c1 then
      if isJsWs c2 then collapseWs (c2 :: rest)
      else ' ' :: collapseWs (c2 :: rest)
    else c1 :: collapseWs (c2 :: rest)

/-- `FormValidator.sanitizeString` (src/utils/validator.js lines 165-192):
trim, entity-encode `& < > " '`, strip null bytes, strip control
characters, collapse whitespace runs to one space, truncate to 10000. -/
def sanitizeString (v : List Char) : List Char :=
  (collapseWs
    (((encodeEntities (jsTrim v)).filter (fun c => !isNullChar c)).filter
      (fun c => !isStrippedCtl c))).take 10000

/-! ## Form-data model

A JSON form value is a string, a number or a boolean (the JSON numbers
appearing in this pipeline are modelled as integers).  A form object is an
ordered association list of field name to value, mirroring a JS object's
insertion-ordered own properties (keys are unique). -/

inductive JVal where
  | str (s : List Char)
  | num (n : Int)
  | jbool (b : Bool)
deriving DecidableEq

/-- JavaScript `String(value)` / `value.toString()` for the three value
kinds. -/
def toStr : JVal → List Char
  | .str s => s
  | .num n => (toString n).data
  | .jbool b => if b then ( "true" ).data else ( "false" ).data

/-- JavaScript truthiness of a form value (`''`, `0` and `false` are
falsy). -/
def jsTruthy : JVal → Bool
  | .str s => !s.isEmpty
  | .num n => n != 0
  | .jbool b => b

/-- A form object: insertion-ordered list of (key, value) pairs. -/
def FormData : Type := List (List Char × JVal)

/-- JS property read `form[k]` (first matching key; keys are unique in a JS
object). -/
def getField : FormData → List Char → Option JVal
  | [], _ => none
  | p :: rest, k => if p.1 == k then some p.2 else getField rest k

/-- JS spread-with-override `{...form, k: v}`: replaces the value of an
existing key in place, otherwise appends the new key at the end. -/
def setKey : FormData → List Char → JVal → FormData
  | [], k, v => [(k, v)]
  | p :: rest, k, v => if p.1 == k then (k, v) :: rest else p :: setKey rest k v

/-- JS `a || d` on an optional string (absent header or empty string falls
back to the default). -/
def jsOrDefault (o : Option (List Char)) (d : List Char) : List Char :=
  match o with
  | some s => if s.isEmpty then d else s
  | none => d

/-- JS `a || d` on an optional form value: keeps `a` only when present and
truthy. -/
def jsOrV (o : Option JVal) (d : JVal) : JVal :=
  match o with
  | some v => if jsTruthy v then v else d
  | none => d

/-- JavaScript `String.prototype.split(sep)` for a one-character
separator. -/
def splitOnChar (sep : Char) : List Char → List (List Char)
  | [] => [[]]
  | c :: rest =>
    match splitOnChar sep rest with
    | [] => [[]]
    | g :: gs => if c == sep then [] :: g :: gs else (c :: g) :: gs

/-- JavaScript `String.prototype.startsWith`. -/
def startsWithList : List Char → List Char → Bool
  | _, [] => true
  | [], _ :: _ => false
  | c :: cs, p :: ps => c == p && startsWithList cs ps

/-- JavaScript `String.prototype.endsWith`: the last `suf.length`
characters equal `suf`. -/
def endsWithList (s suf : List Char) : Bool :=
  s.drop (s.length - suf.length) == suf

/-! ## FormValidator (src/utils/validator.js) -/

/-- The digit characters. -/
def isDigit (c : Char) : Bool := decide ('0' ≤ c ∧ c ≤ '9')

/-- The ASCII letters. -/
def isAsciiLetter (c : Char) : Bool :=
  decide ('a' ≤ c ∧ c ≤ 'z') || decide ('A' ≤ c ∧ c ≤ 'Z')

/-- A character allowed on either side of the `@` by the email regex
`/^[^\s@]+@[^\s@]+\.[^\s@]+$/` (anything except whitespace; `@` is already
excluded by the split). -/
def isEmailChar (c : Char) : Bool := !isJsWs c

/-- Whether the list has a `.` that is followed by at least one further
character (used for the `\.[^\s@]+$` tail of the email regex, scanning the
domain part with its first character already removed). -/
def hasDotNotLast : List Char → Bool
  | [] => false
  | ['.'] => false
  | '.' :: _ :: _ => true
  | _ :: rest => hasDotNotLast rest

/-- Whether the list contains a `.` that is neither its first nor its last
character. -/
def interiorDot : List Char → Bool
  | [] => false
  | _ :: rest => hasDotNotLast rest

/-- The email regex `/^[^\s@]+@[^\s@]+\.[^\s@]+$/` of
`FormValidator.patterns.email`: exactly one `@`, a non-empty
whitespace-free local part, and a whitespace-free domain part containing an
interior dot. -/
def emailMatch (s : List Char) : Bool :=
  match splitOnChar '@' s with
  | [l, r] => !l.isEmpty && l.all isEmailChar && r.all isEmailChar && interiorDot r
  | _ => false

/-- `[1-9][\d]{0,15}` after the optional `+` of the phone regex. -/
def phoneCore : List Char → Bool
  | [] => false
  | c :: rest => decide ('1' ≤ c ∧ c ≤ '9') && decide (rest.length ≤ 15) && rest.all isDigit

/-- The phone regex `/^[\+]?[1-9][\d]{0,15}$/` of
`FormValidator.patterns.phone`. -/
def phoneMatch (s : List Char) : Bool :=
  match s with
  | '+' :: rest => phoneCore rest
  | _ => phoneCore s

/-- The characters `validateField` strips before the phone test
(`/[\s\-\(\)]/g`). -/
def isPhoneStripped (c : Char) : Bool := isJsWs c || c == '-' || c == '(' || c == ')'

/-- JS line-terminator characters (not matched by `.` in a regex). -/
def isLineTerm (c : Char) : Bool :=
  c == Char.ofNat 10 || c == Char.ofNat 13 || c.toNat == 8232 || c.toNat == 8233

/-- Drops a leading `http://` or `https://` scheme, if present. -/
def dropScheme : List Char → Option (List Char)
  | 'h' :: 't' :: 't' :: 'p' :: ':' :: '/' :: '/' :: rest => some rest
  | 'h' :: 't' :: 't' :: 'p' :: 's' :: ':' :: '/' :: '/' :: rest => some rest
  | _ => none

/-- The url regex `/^https?:\/\/.+/` of `FormValidator.patterns.url`. -/
def urlMatch (s : List Char) : Bool :=
  match dropScheme s with
  | some (c :: _) => !isLineTerm c
  | _ => false

/-- A character of the name regex class `[a-zA-Z\s'-]`. -/
def isNameChar (c : Char) : Bool :=
  isAsciiLetter c || isJsWs c || c == aposChar || c == '-'

/-- The name regex `/^[a-zA-Z\s'-]+$/` of `FormValidator.patterns.name`. -/
def nameMatch (s : List Char) : Bool := !s.isEmpty && s.all isNameChar

/-- A character of the alphanumeric regex class `[a-zA-Z0-9\s]`. -/
def isAlnumChar (c : Char) : Bool := isAsciiLetter c || isDigit c || isJsWs c

/-- The alphanumeric regex `/^[a-zA-Z0-9\s]+$/` of
`FormValidator.patterns.alphanumeric`. -/
def alnumMatch (s : List Char) : Bool := !s.isEmpty && s.all isAlnumChar

/-- `FormValidator.limits`: per-field (min, max) length bounds. -/
def limitsFor (field : List Char) : Option (Nat × Nat) :=
  if field = ( "name" ).data then some (1, 100)
  else if field = ( "email" ).data then some (5, 254)
  else if field = ( "phone" ).data then some (10, 20)
  else if field = ( "message" ).data then some (1, 5000)
  else if field = ( "subject" ).data then some (1, 200)
  else if field = ( "company" ).data then some (1, 100)
  else if field = ( "website" ).data then some (1, 200)
  else none

/-- `FormValidator.validateField` (src/utils/validator.js lines 71-125):
length bounds for known fields plus per-field format rules. -/
def validateField (field : List Char) (value : JVal) : List (List Char) :=
  let stringValue := jsTrim (toStr value)
  if stringValue.isEmpty then []
  else
    let lengthErrors :=
      match limitsFor field with
      | none => []
      | some (mn, mx) =>
        (if stringValue.length < mn then
          [field ++ ( " must be at least " ).data ++ (toString mn).data ++
            ( " characters long" ).data]
         else []) ++
        (if mx < stringValue.length then
          [field ++ ( " must be no more than " ).data ++ (toString mx).data ++
            ( " characters long" ).data]
         else [])
    let formatErrors :=
      if field = ( "email" ).data then
        if emailMatch stringValue then [] else [( "Invalid email format" ).data]
      else if field = ( "phone" ).data then
        if phoneMatch (stringValue.filter (fun c => !isPhoneStripped c)) then []
        else [( "Invalid phone number format" ).data]
      else if field = ( "website" ).data then
        if urlMatch stringValue then [] else [( "Invalid website URL format" ).data]
      else if field = ( "name" ).data then
        if nameMatch stringValue then [] else [( "Name contains invalid characters" ).data]
      else if field = ( "company" ).data then
        if 0 < stringValue.length ∧ alnumMatch stringValue = false then
          [( "Company name contains invalid characters" ).data]
        else []
      else []
    lengthErrors ++ formatErrors

/-- The comma-separated required-fields configuration, split and trimmed
(`requiredFields ? requiredFields.split(',').map(f => f.trim()) : []`). -/
def parseRequired (rf : List Char) : List (List Char) :=
  if rf.isEmpty then [] else (splitOnChar ',' rf).map jsTrim

/-- The required-field test of `validateFormData`:
`!formData[field] || formData[field].toString().trim() === ''`. -/
def isMissingRequired (form : FormData) (f : List Char) : Bool :=
  match getField form f with
  | none => true
  | some v => !jsTruthy v || (jsTrim (toStr v)).isEmpty

/-- The result record of `validateFormData`. -/
structure ValidationResult where
  isValid : Bool
  errors : List (List Char)

/-- `FormValidator.validateFormData` (src/utils/validator.js lines 42-63):
required-field pass, then per-field pass over every entry; valid iff no
errors. -/
def validateFormData (form : FormData) (requiredFields : List Char) : ValidationResult :=
  let requiredList := parseRequired requiredFields
  let reqErrors :=
    (requiredList.filter (fun f => isMissingRequired form f)).map
      (fun f => f ++ ( " is required" ).data)
  let fieldErrors := (form.map (fun p => validateField p.1 p.2)).flatten
  let errors := reqErrors ++ fieldErrors
  { isValid := errors.isEmpty, errors := errors }

/-- `FormValidator.sanitizeNumber`: clamp to ±999999999 (non-finite inputs
do not arise for integer-valued JSON numbers). -/
def sanitizeNumber (n : Int) : Int := max (-999999999) (min 999999999 n)

/-- The keys skipped by `sanitizeFormData`. -/
def systemKeys : List (List Char) :=
  [( "timestamp" ).data, ( "ip" ).data, ( "userAgent" ).data, ( "origin" ).data]

/-- Per-value sanitization of `sanitizeFormData`: strings through
`sanitizeString`, numbers through `sanitizeNumber`, booleans unchanged. -/
def sanitizeValue : JVal → JVal
  | .str s => .str (sanitizeString s)
  | .num n => .num (sanitizeNumber n)
  | .jbool b => .jbool b

/-- `FormValidator.sanitizeFormData` (src/utils/validator.js lines
132-156): sanitize every entry except the four system keys, which pass
through unchanged. -/
def sanitizeFormData (form : FormData) : FormData :=
  form.map (fun p => if systemKeys.contains p.1 then p else (p.1, sanitizeValue p.2))

/-! ## Request pipeline (src/index.js) -/

/-- The request headers the pipeline reads (absent header = `none`). -/
structure RequestMeta where
  ipHeader : Option (List Char)
  userAgentHeader : Option (List Char)
  originHeader : Option (List Char)

/-- The `submissionData` object built in `fetch` (src/index.js lines
84-94): sanitized body spread first, then `timestamp`, `ip`, `userAgent`
and `origin` set from the pipeline clock and request headers. -/
def buildSubmission (body : FormData) (meta : RequestMeta) (nowIso : List Char) : FormData :=
  setKey
    (setKey
      (setKey
        (setKey (sanitizeFormData body) (( "timestamp" ).data) (.str nowIso))
        (( "ip" ).data) (.str (jsOrDefault meta.ipHeader (( "unknown" ).data))))
      (( "userAgent" ).data) (.str (jsOrDefault meta.userAgentHeader (( "unknown" ).data))))
    (( "origin" ).data) (.str (jsOrDefault meta.originHeader (( "unknown" ).data)))

/-! ## AirtableService (src/services/airtable.js) -/

/-- The `fields` record sent to Airtable. -/
structure AirtableFields where
  nameF : JVal
  emailF : JVal
  messageF : JVal
  timestampF : JVal
  ipF : JVal
  originF : JVal
deriving DecidableEq

/-- `AirtableService.prepareAirtableData` (src/services/airtable.js lines
55-68): each Airtable column prefers the capitalized form field, then the
lowercase one, then a default; `Timestamp` falls back to the adapter's
clock. -/
def prepareAirtableData (form : FormData) (nowIso : List Char) : AirtableFields :=
  { nameF := jsOrV (getField form (( "Name" ).data))
      (jsOrV (getField form (( "name" ).data)) (.str []))
    emailF := jsOrV (getField form (( "Email" ).data))
      (jsOrV (getField form (( "email" ).data)) (.str []))
    messageF := jsOrV (getField form (( "Message" ).data))
      (jsOrV (getField form (( "message" ).data)) (.str []))
    timestampF := jsOrV (getField form (( "Timestamp" ).data)) (.str nowIso)
    ipF := jsOrV (getField form (( "IP Address" ).data))
      (jsOrV (getField form (( "ip" ).data)) (.str (( "unknown" ).data)))
    originF := jsOrV (getField form (( "Origin" ).data))
      (jsOrV (getField form (( "origin" ).data)) (.str (( "unknown" ).data))) }

/-! ## SecurityHelper (src/utils/security.js) -/

/-- The comma-separated allow-list configuration, split and trimmed
(`allowedOrigins ? allowedOrigins.split(',').map(o => o.trim()) : []`). -/
def parseAllowed (cfg : Option (List Char)) : List (List Char) :=
  match cfg with
  | some s => if s.isEmpty then [] else (splitOnChar ',' s).map jsTrim
  | none => []

/-- `SecurityHelper.isSubdomainAllowed` (src/utils/security.js lines
51-65). -/
def isSubdomainAllowed (origin : Option (List Char)) (allowedList : List (List Char)) : Bool :=
  match origin with
  | none => false
  | some o =>
    if o.isEmpty then false
    else
      allowedList.any (fun allowed =>
        if allowed == ( "*" ).data then true
        else if o == allowed then true
        else if startsWithList allowed (( "." ).data) then endsWithList o allowed
        else false)

/-- `SecurityHelper.validateOrigin` (src/utils/security.js lines 122-132):
absent or empty origin fails closed; otherwise wildcard, exact match or
dot-suffix match. -/
def validateOrigin (origin : Option (List Char)) (cfg : Option (List Char)) : Bool :=
  match origin with
  | none => false
  | some o =>
    if o.isEmpty then false
    else
      let lst := parseAllowed cfg
      if lst.contains (( "*" ).data) then true
      else if lst.contains o then true
      else isSubdomainAllowed (some o) lst

/-- The cookie-name marker searched by `validateCsrfToken`. -/
def csrfMark : List Char := ( "__Host-csrf-token=" ).data

/-- `SecurityHelper.validateCsrfToken` (src/utils/security.js lines
301-321): requires a non-empty `X-CSRF-Token` header and `Cookie` header,
finds the first `__Host-csrf-token=` cookie, extracts
`cookie.split('=')[1]` and compares it with the header token. -/
def validateCsrfToken (headerToken cookieHeader : Option (List Char)) : Bool :=
  match headerToken, cookieHeader with
  | some h, some ck =>
    if h.isEmpty || ck.isEmpty then false
    else
      match ((splitOnChar ';' ck).map jsTrim).find? (fun c => startsWithList c csrfMark) with
      | none => false
      | some csrfCookie =>
        match (splitOnChar '=' csrfCookie).get? 1 with
        | some cookieToken => h == cookieToken
        | none => false
  | _, _ => false

/-- Modelled from the spec: the cookie token of a request is the full value
of the `__Host-csrf-token` cookie, i.e. everything after the first `=` of
the matching cookie pair (the code under test extracts only the segment
before the next `=`; this definition follows the spec's reading and is used
to compare the two). -/
def specCookieToken (cookieHeader : List Char) : Option (List Char) :=
  match ((splitOnChar ';' cookieHeader).map jsTrim).find?
      (fun c => startsWithList c csrfMark) with
  | some c => some (c.drop csrfMark.length)
  | none => none

/-! ## Rate limiter (SecurityHelper.checkRateLimit, src/utils/security.js
lines 73-114) -/

/-- The result record of `checkRateLimit`. -/
structure RateLimitResult where
  allowed : Bool
  remaining : Int
  resetTime : Int
deriving DecidableEq

/-- `parseInt(env.RATE_LIMIT_REQUESTS_PER_MINUTE) || 60`: an unset or
unparsable variable, and also the falsy parse result `0`, fall back to
60. -/
def resolveLimit : Option Nat → Nat
  | none => 60
  | some n => if n = 0 then 60 else n

/-- One run of the configured rate-limit check against a reachable store:
read the stored timestamps, keep those younger than the 60000 ms window,
reject when the limit is reached (`resetTime` from the oldest surviving
timestamp, which the code reads with a truthiness test), otherwise append
`now`, store the new list, and allow.  Returns the result and the new
stored value (unchanged on rejection, since the code returns before the
`put`). -/
def rlStep (limitEnv : Option Nat) (now : Int) (store : Option (List Int)) :
    RateLimitResult × Option (List Int) :=
  let timestamps := store.getD []
  let limit := resolveLimit limitEnv
  let recent := timestamps.filter (fun ts => decide (now - ts < 60000))
  if limit ≤ recent.length then
    ({ allowed := false, remaining := 0,
       resetTime :=
         match recent.head? with
         | some t => if t = 0 then now + 60000 else t + 60000
         | none => now + 60000 },
     store)
  else
    let newTimestamps := recent ++ [now]
    ({ allowed := true, remaining := (limit : Int) - (newTimestamps.length : Int),
       resetTime := now + 60000 },
     some newTimestamps)

/-- `SecurityHelper.checkRateLimit` for one request: when the KV namespace
is unconfigured it skips rate limiting; otherwise the KV `get` result (or
its thrown error) is consumed, and on the allow path the KV `put` may also
throw.  A thrown store error propagates as `Except.error` (the code does
not catch it). -/
def checkRateLimit (kvConfigured : Bool) (kvGet : Except (List Char) (Option (List Int)))
    (putErr : Option (List Char)) (limitEnv : Option Nat) (now : Int) :
    Except (List Char) RateLimitResult :=
  if !kvConfigured then .ok { allowed := true, remaining := -1, resetTime := -1 }
  else
    match kvGet with
    | .error e => .error e
    | .ok store =>
      let res := (rlStep limitEnv now store).1
      if res.allowed then
        match putErr with
        | some e => .error e
        | none => .ok res
      else .ok res

/-- What `fetch` (src/index.js lines 56-122) does with the rate-limit
check: a thrown error reaches the outer catch and the request is answered
with status 500; a not-allowed result is answered with 429; an allowed
result lets the request continue (`none`). -/
def rateLimitGate (r : Except (List Char) RateLimitResult) : Option Nat :=
  match r with
  | .error _ => some 500
  | .ok res => if res.allowed then none else some 429

/-- Iterated rate-limit checks of one client against the shared store
(successful `get`/`put` round trips), threading the stored value. -/
def rlRun (limitEnv : Option Nat) (times : List Int) (store : Option (List Int)) :
    List RateLimitResult × Option (List Int) :=
  match times with
  | [] => ([], store)
  | t :: ts =>
    let step := rlStep limitEnv t store
    let rest := rlRun limitEnv ts step.2
    (step.1 :: rest.1, rest.2)

/-! ## Dispatcher (processFormSubmission, src/index.js lines 132-173) -/

/-- The per-service result record (`{success, error}`; a provider id may
also be present but is irrelevant to the aggregation). -/
structure ServiceResult where
  success : Bool
  error : Option (List Char)
deriving DecidableEq

/-- An adapter invocation either returns a result object or throws. -/
def runService (outcome : Except (List Char) ServiceResult) : ServiceResult :=
  match outcome with
  | .ok r => r
  | .error e => { success := false, error := some e }

/-- The aggregated result of `processFormSubmission`. -/
structure DispatchOutcome where
  success : Bool
  submissionId : List Char
  airtable : ServiceResult
  email : ServiceResult
deriving DecidableEq

/-- Truthiness of an optional environment string (`undefined` and `''` are
falsy). -/
def envTruthy : Option (List Char) → Bool
  | none => false
  | some s => !s.isEmpty

/-- The service-configuration part of the Worker environment. -/
structure EnvCfg where
  airtableApiKey : Option (List Char)
  airtableBaseId : Option (List Char)
  resendApiKey : Option (List Char)

/-- `env.AIRTABLE_API_KEY && env.AIRTABLE_BASE_ID` in
`processFormSubmission`. -/
def airtableConfigured (env : EnvCfg) : Bool :=
  envTruthy env.airtableApiKey && envTruthy env.airtableBaseId

/-- `env.RESEND_API_KEY` in `processFormSubmission`. -/
def emailConfigured (env : EnvCfg) : Bool := envTruthy env.resendApiKey

/-- `processFormSubmission` (src/index.js lines 132-173): invoke each
configured service, catching a thrown adapter error into that service's
result; overall `success` is the OR of the two per-service flags. -/
def processFormSubmission (env : EnvCfg) (subId : List Char)
    (airtableCall emailCall : Except (List Char) ServiceResult) : DispatchOutcome :=
  let initial : ServiceResult := { success := false, error := none }
  let a := if airtableConfigured env then runService airtableCall else initial
  let e := if emailConfigured env then runService emailCall else initial
  { success := a.success || e.success, submissionId := subId, airtable := a, email := e }

/-! ## Retry policy (AirtableService.retryRequest and
EmailService.retryRequest, identical code) -/

/-- An HTTP response, reduced to its status (the only part the retry loop
inspects). -/
structure HttpResp where
  status : Nat
deriving DecidableEq

/-- `response.ok`: status in 200-299. -/
def respOk (r : HttpResp) : Bool := decide (200 ≤ r.status ∧ r.status < 300)

/-- A client-error response: status in 400-499. -/
def isClientErr (r : HttpResp) : Bool := decide (400 ≤ r.status ∧ r.status < 500)

/-- The retry loop body: `remaining` attempts left, current 1-based
`attempt` index, last caught exception.  `outcomes i` is what the `i`-th
`fetch` does (returns a response or throws).  Returns the final outcome and
the number of `fetch` calls performed. -/
def retryGo (outcomes : Nat → Except (List Char) HttpResp) :
    Nat → Nat → Option (List Char) → Except (List Char) HttpResp × Nat
  | 0, attempt, last => (.error (last.getD (( "undefined" ).data)), attempt - 1)
  | remaining + 1, attempt, last =>
    match outcomes attempt with
    | .ok resp =>
      if respOk resp || isClientErr resp then (.ok resp, attempt)
      else if remaining = 0 then (.ok resp, attempt)
      else retryGo outcomes remaining (attempt + 1) last
    | .error e =>
      if remaining = 0 then (.error e, attempt)
      else retryGo outcomes remaining (attempt + 1) (some e)

/-- `retryRequest(url, options, maxRetries)` (src/services/airtable.js
lines 93-114 and src/services/email.js lines 93-108): attempts 1 to
`maxRetries`; success or a 4xx response returns immediately; a server-error
response on the last attempt is returned as a value; a thrown error on the
last attempt propagates; otherwise the loop retries after a backoff delay
(time is not modelled).  The second component counts the `fetch` calls. -/
def retryRequest (outcomes : Nat → Except (List Char) HttpResp) (maxRetries : Nat) :
    Except (List Char) HttpResp × Nat :=
  retryGo outcomes maxRetries 1 none

/-! Helper lemmas about the sanitizer's building blocks. -/

theorem mem_of_mem_dropWhile {p : Char → Bool} {s : List Char} {c : Char}
    (h : c ∈ s.dropWhile p) : c ∈ s :=
  List.Sublist.mem h (List.dropWhile_sublist p)

theorem mem_jsTrim {s : List Char} {c : Char} (h : c ∈ jsTrim s) : c ∈ s := by
  unfold jsTrim dropTrailWs dropLeadWs at h
  rw [List.mem_reverse] at h
  have h2 := mem_of_mem_dropWhile h
  rw [List.mem_reverse] at h2
  exact mem_of_mem_dropWhile h2

theorem dropWhile_head_false {p : Char → Bool} {s : List Char} {c : Char}
    (h : (s.dropWhile p).head? = some c) : p c = false := by
  have hh := List.head?_dropWhile_not p s
  rw [h] at hh
  exact hh

theorem getLast?_dropWhile {p : Char → Bool} :
    ∀ {l : List Char}, l.dropWhile p ≠ [] → (l.dropWhile p).getLast? = l.getLast?
  | [], h => absurd rfl h
  | a :: t, h => by
    by_cases hp : p a = true
    · rw [List.dropWhile_cons, if_pos hp] at h ⊢
      cases t with
      | nil => simp at h
      | cons b t2 =>
        rw [List.getLast?_cons_cons]
        exact getLast?_dropWhile h
    · rw [List.dropWhile_cons, if_neg hp]

theorem jsTrim_length_le (s : List Char) : (jsTrim s).length ≤ s.length := by
  unfold jsTrim dropTrailWs dropLeadWs
  rw [List.length_reverse]
  calc ((s.dropWhile fun c => isJsWs c).reverse.dropWhile fun c => isJsWs c).length
      ≤ (s.dropWhile fun c => isJsWs c).reverse.length :=
        (List.dropWhile_sublist _).length_le
    _ = (s.dropWhile fun c => isJsWs c).length := List.length_reverse _
    _ ≤ s.length := (List.dropWhile_sublist _).length_le

theorem jsTrim_getLast_not_ws {s : List Char} {c : Char}
    (h : (jsTrim s).getLast? = some c) : isJsWs c = false := by
  unfold jsTrim dropTrailWs at h
  rw [List.getLast?_reverse] at h
  exact dropWhile_head_false h

theorem jsTrim_head_not_ws {s : List Char} {c : Char}
    (h : (jsTrim s).head? = some c) : isJsWs c = false := by
  unfold jsTrim dropTrailWs at h
  rw [List.head?_reverse] at h
  have hne : (dropLeadWs s).reverse.dropWhile (fun c => isJsWs c) ≠ [] := by
    intro he
    rw [he] at h
    simp at h
  rw [getLast?_dropWhile hne, List.getLast?_reverse] at h
  exact dropWhile_head_false h

theorem dropWhile_eq_self_of_head {p : Char → Bool} {l : List Char}
    (h : ∀ c, l.head? = some c → p c = false) : l.dropWhile p = l := by
  cases l with
  | nil => rfl
  | cons a t =>
    rw [List.dropWhile_cons]
    simp [h a rfl]

theorem jsTrim_eq_self {l : List Char}
    (h1 : ∀ c, l.head? = some c → isJsWs c = false)
    (h2 : ∀ c, l.getLast? = some c → isJsWs c = false) : jsTrim l = l := by
  unfold jsTrim dropLeadWs dropTrailWs
  rw [dropWhile_eq_self_of_head h1]
  rw [dropWhile_eq_self_of_head (fun c hc => h2 c (by rwa [List.head?_reverse] at hc))]
  exact List.reverse_reverse l

theorem collapseWs_cons_of_not_ws {c : Char} (hc : isJsWs c = false) (l : List Char) :
    collapseWs (c :: l) = c :: collapseWs l := by
  cases l with
  | nil => simp [collapseWs, hc]
  | cons b t => simp [collapseWs, hc]

theorem collapseWs_ne_nil : ∀ {l : List Char}, l ≠ [] → collapseWs l ≠ []
  | [], h => absurd rfl h
  | [c], _ => by
    by_cases hc : isJsWs c = true <;> simp [collapseWs, hc]
  | c1 :: c2 :: rest, _ => by
    by_cases h1 : isJsWs c1 = true
    · by_cases h2 : isJsWs c2 = true
      · rw [show collapseWs (c1 :: c2 :: rest) = collapseWs (c2 :: rest) by
          simp [collapseWs, h1, h2]]
        exact collapseWs_ne_nil (by simp)
      · simp [collapseWs, h1, h2]
    · simp [collapseWs, h1]

theorem collapseWs_length : ∀ (l : List Char), (collapseWs l).length ≤ l.length
  | [] => le_refl _
  | [c] => by by_cases hc : isJsWs c = true <;> simp [collapseWs, hc]
  | c1 :: c2 :: rest => by
    by_cases h1 : isJsWs c1 = true
    · by_cases h2 : isJsWs c2 = true
      · rw [show collapseWs (c1 :: c2 :: rest) = collapseWs (c2 :: rest) by
          simp [collapseWs, h1, h2]]
        exact le_trans (collapseWs_length (c2 :: rest)) (by simp)
      · rw [show collapseWs (c1 :: c2 :: rest) = ' ' :: collapseWs (c2 :: rest) by
          simp [collapseWs, h1, h2]]
        simpa using collapseWs_length (c2 :: rest)
    · rw [show collapseWs (c1 :: c2 :: rest) = c1 :: collapseWs (c2 :: rest) by
        simp [collapseWs, h1]]
      simpa using collapseWs_length (c2 :: rest)

theorem collapseWs_mem : ∀ {l : List Char} {c : Char}, c ∈ collapseWs l → c ∈ l ∨ c = ' '
  | [], c, h => by simp [collapseWs] at h
  | [a], c, h => by
    by_cases ha : isJsWs a = true
    · simp [collapseWs, ha] at h
      exact Or.inr h
    · simp [collapseWs, ha] at h
      exact Or.inl (by simp [h])
  | a :: b :: t, c, h => by
    by_cases h1 : isJsWs a = true
    · by_cases h2 : isJsWs b = true
      · rw [show collapseWs (a :: b :: t) = collapseWs (b :: t) by
          simp [collapseWs, h1, h2]] at h
        rcases collapseWs_mem h with hm | hm
        · exact Or.inl (List.mem_cons_of_mem a hm)
        · exact Or.inr hm
      · rw [show collapseWs (a :: b :: t) = ' ' :: collapseWs (b :: t) by
          simp [collapseWs, h1, h2]] at h
        rcases List.mem_cons.mp h with hm | hm
        · exact Or.inr hm
        · rcases collapseWs_mem hm with hm2 | hm2
          · exact Or.inl (List.mem_cons_of_mem a hm2)
          · exact Or.inr hm2
    · rw [show collapseWs (a :: b :: t) = a :: collapseWs (b :: t) by
        simp [collapseWs, h1]] at h
      rcases List.mem_cons.mp h with hm | hm
      · exact Or.inl (by simp [hm])
      · rcases collapseWs_mem hm with hm2 | hm2
        · exact Or.inl (List.mem_cons_of_mem a hm2)
        · exact Or.inr hm2

theorem collapseWs_head {l : List Char} {c : Char} (h : l.head? = some c)
    (hc : isJsWs c = false) : (collapseWs l).head? = some c := by
  cases l with
  | nil => simp at h
  | cons a t =>
    have ha : a = c := by simpa using h
    subst ha
    rw [collapseWs_cons_of_not_ws hc]
    rfl

theorem collapseWs_getLast :
    ∀ {l : List Char} {c : Char}, l.getLast? = some c → isJsWs c = false →
      (collapseWs l).getLast? = some c
  | [], c, h, _ => by simp at h
  | [a], c, h, hc => by
    have ha : a = c := by simpa using h
    subst ha
    simp [collapseWs, hc]
  | a :: b :: t, c, h, hc => by
    rw [List.getLast?_cons_cons] at h
    by_cases h1 : isJsWs a = true
    · by_cases h2 : isJsWs b = true
      · rw [show collapseWs (a :: b :: t) = collapseWs (b :: t) by
          simp [collapseWs, h1, h2]]
        exact collapseWs_getLast h hc
      · rw [show collapseWs (a :: b :: t) = ' ' :: collapseWs (b :: t) by
          simp [collapseWs, h1, h2]]
        have hrec := collapseWs_getLast h hc
        cases hw : collapseWs (b :: t) with
        | nil => exact absurd hw (collapseWs_ne_nil (by simp))
        | cons x xs =>
          rw [hw] at hrec
          rw [List.getLast?_cons_cons]
          exact hrec
    · rw [show collapseWs (a :: b :: t) = a :: collapseWs (b :: t) by
        simp [collapseWs, h1]]
      have hrec := collapseWs_getLast h hc
      cases hw : collapseWs (b :: t) with
      | nil => exact absurd hw (collapseWs_ne_nil (by simp))
      | cons x xs =>
        rw [hw] at hrec
        rw [List.getLast?_cons_cons]
        exact hrec

theorem collapseWs_idem : ∀ (l : List Char), collapseWs (collapseWs l) = collapseWs l
  | [] => rfl
  | [c] => by
    by_cases hc : isJsWs c = true <;> simp [collapseWs, hc]
  | c1 :: c2 :: rest => by
    by_cases h1 : isJsWs c1 = true
    · by_cases h2 : isJsWs c2 = true
      · rw [show collapseWs (c1 :: c2 :: rest) = collapseWs (c2 :: rest) by
          simp [collapseWs, h1, h2]]
        exact collapseWs_idem (c2 :: rest)
      · have e1 : collapseWs (c1 :: c2 :: rest) = ' ' :: collapseWs (c2 :: rest) := by
          simp [collapseWs, h1, h2]
        have h2f : isJsWs c2 = false := by simpa using h2
        have e2 : collapseWs (c2 :: rest) = c2 :: collapseWs rest :=
          collapseWs_cons_of_not_ws h2f rest
        rw [e1, e2]
        rw [show collapseWs (' ' :: c2 :: collapseWs rest)
              = ' ' :: collapseWs (c2 :: collapseWs rest) by
          simp [collapseWs, h2]]
        rw [collapseWs_cons_of_not_ws h2f, collapseWs_idem rest]
    · have h1f : isJsWs c1 = false := by simpa using h1
      rw [show collapseWs (c1 :: c2 :: rest) = c1 :: collapseWs (c2 :: rest) by
        simp [collapseWs, h1]]
      rw [collapseWs_cons_of_not_ws h1f, collapseWs_idem (c2 :: rest)]

theorem encodeEntity_eq_single {c : Char} (h : isHtmlSpecial c = false) :
    encodeEntity c = [c] := by
  simp only [isHtmlSpecial, Bool.or_eq_false_iff, beq_eq_false_iff_ne, ne_eq] at h
  simp [encodeEntity, h.1.1.1.1, h.1.1.1.2, h.1.1.2, h.1.2, h.2]

theorem encodeEntities_eq_self {z : List Char}
    (h : ∀ c ∈ z, isHtmlSpecial c = false) : encodeEntities z = z := by
  unfold encodeEntities
  induction z with
  | nil => rfl
  | cons a t ih =>
    simp only [List.map_cons, List.flatten_cons]
    rw [encodeEntity_eq_single (h a (List.mem_cons_self a t))]
    rw [ih (fun c hc => h c (List.mem_cons_of_mem a hc))]
    rfl

theorem null_is_ctl {c : Char} (h : isNullChar c = true) : isStrippedCtl c = true := by
  simp only [isNullChar, beq_iff_eq] at h
  simp [isStrippedCtl, h]

theorem sanitizeString_plain_eq {z : List Char}
    (hs : ∀ c ∈ z, isHtmlSpecial c = false)
    (hc : ∀ c ∈ z, isStrippedCtl c = false)
    (hl : z.length ≤ 10000) :
    sanitizeString z = collapseWs (jsTrim z) := by
  unfold sanitizeString
  have hts : ∀ c ∈ jsTrim z, isHtmlSpecial c = false := fun c hcm => hs c (mem_jsTrim hcm)
  have htc : ∀ c ∈ jsTrim z, isStrippedCtl c = false := fun c hcm => hc c (mem_jsTrim hcm)
  have hnull : List.filter (fun c => !isNullChar c) (jsTrim z) = jsTrim z :=
    List.filter_eq_self.mpr (by
      intro c hcm
      cases hn : isNullChar c with
      | false => simp
      | true => exact absurd (null_is_ctl hn) (by simp [htc c hcm]))
  have hctl : List.filter (fun c => !isStrippedCtl c) (jsTrim z) = jsTrim z :=
    List.filter_eq_self.mpr (by intro c hcm; simp [htc c hcm])
  rw [encodeEntities_eq_self hts, hnull, hctl]
  apply List.take_of_length_le
  calc (collapseWs (jsTrim z)).length ≤ (jsTrim z).length := collapseWs_length _
    _ ≤ z.length := jsTrim_length_le z
    _ ≤ 10000 := hl

theorem sanitizeString_ends_not_ws {x : List Char} {c : Char} :
    ((collapseWs (jsTrim x)).head? = some c → isJsWs c = false) ∧
    ((collapseWs (jsTrim x)).getLast? = some c → isJsWs c = false) := by
  constructor
  · intro hc
    cases ht : jsTrim x with
    | nil => rw [ht] at hc; simp [collapseWs] at hc
    | cons a t =>
      have ha : isJsWs a = false := jsTrim_head_not_ws (by rw [ht]; rfl)
      have hh := collapseWs_head (l := jsTrim x) (c := a) (by rw [ht]; rfl) ha
      rw [hh] at hc
      cases hc
      exact ha
  · intro hc
    cases hgl : (jsTrim x).getLast? with
    | none =>
      rw [List.getLast?_eq_none_iff] at hgl
      rw [hgl] at hc
      simp [collapseWs] at hc
    | some a =>
      have ha : isJsWs a = false := jsTrim_getLast_not_ws hgl
      have hh := collapseWs_getLast hgl ha
      rw [hh] at hc
      cases hc
      exact ha

/-! Helper lemmas about the form-data and security building blocks. -/

theorem getField_setKey_same : ∀ (f : FormData) (k : List Char) (v : JVal),
    getField (setKey f k v) k = some v
  | [], k, v => by simp [setKey, getField]
  | p :: rest, k, v => by
    by_cases h : (p.1 == k) = true
    · simp [setKey, getField, h]
    · simp only [setKey, h, if_false, Bool.false_eq_true]
      simp only [getField, h, if_false, Bool.false_eq_true]
      exact getField_setKey_same rest k v

theorem getField_setKey_ne {k k2 : List Char} (hne : k2 ≠ k) :
    ∀ (f : FormData) (v : JVal), getField (setKey f k v) k2 = getField f k2
  | [], v => by
    have hkk : ¬ k = k2 := fun hh => hne hh.symm
    simp [setKey, getField, hkk]
  | p :: rest, v => by
    by_cases h : (p.1 == k) = true
    · have hp : p.1 = k := by simpa using h
      have hkk : ¬ k = k2 := fun hh => hne hh.symm
      simp [setKey, getField, h, hp, hkk]
    · simp only [setKey, h, if_false, Bool.false_eq_true]
      simp only [getField]
      by_cases h2 : (p.1 == k2) = true
      · simp [h2]
      · simp only [h2, if_false, Bool.false_eq_true]
        exact getField_setKey_ne hne rest v

theorem splitOnChar_ne_nil (sep : Char) : ∀ (s : List Char), splitOnChar sep s ≠ []
  | [] => by simp [splitOnChar]
  | c :: rest => by
    have h := splitOnChar_ne_nil sep rest
    cases hs : splitOnChar sep rest with
    | nil => exact absurd hs h
    | cons g gs =>
      by_cases hc : (c == sep) = true <;> simp [splitOnChar, hs, hc]

theorem splitOnChar_no_sep {sep : Char} : ∀ {s : List Char}, (∀ c ∈ s, c ≠ sep) →
    splitOnChar sep s = [s]
  | [], _ => rfl
  | c :: rest, h => by
    have hr : splitOnChar sep rest = [rest] :=
      splitOnChar_no_sep (fun x hx => h x (List.mem_cons_of_mem c hx))
    have hc : (c == sep) = false := by
      simp only [beq_eq_false_iff_ne, ne_eq]
      exact h c (List.mem_cons_self c rest)
    simp [splitOnChar, hr, hc]

theorem splitOnChar_append {sep : Char} : ∀ {p : List Char} (rest : List Char),
    (∀ c ∈ p, c ≠ sep) → splitOnChar sep (p ++ sep :: rest) = p :: splitOnChar sep rest
  | [], rest, _ => by
    cases hs : splitOnChar sep rest with
    | nil => exact absurd hs (splitOnChar_ne_nil sep rest)
    | cons g gs => simp [splitOnChar, hs]
  | a :: p, rest, h => by
    have hr := splitOnChar_append (p := p) rest (fun x hx => h x (List.mem_cons_of_mem a hx))
    have ha : (a == sep) = false := by
      simp only [beq_eq_false_iff_ne, ne_eq]
      exact h a (List.mem_cons_self a p)
    simp [splitOnChar, hr, ha]

theorem startsWith_append : ∀ (p c : List Char), startsWithList c p = true →
    c = p ++ c.drop p.length
  | [], c, _ => by simp
  | p0 :: ps, [], h => by simp [startsWithList] at h
  | p0 :: ps, c0 :: cs, h => by
    simp only [startsWithList, Bool.and_eq_true, beq_iff_eq] at h
    obtain ⟨he, hrest⟩ := h
    subst he
    simp only [List.length_cons, List.cons_append, List.cons.injEq, true_and]
    rw [List.drop_succ_cons]
    exact startsWith_append ps cs hrest

theorem list_isEmpty_false_of_mem {α : Type} {a : α} {l : List α} (h : a ∈ l) :
    l.isEmpty = false := by
  cases l with
  | nil => simp at h
  | cons b t => rfl

theorem required_error_mem {form : FormData} {rf f : List Char}
    (hf : f ∈ parseRequired rf) (hm : isMissingRequired form f = true) :
    (f ++ ( " is required" ).data) ∈ (validateFormData form rf).errors := by
  unfold validateFormData
  apply List.mem_append_left
  exact List.mem_map_of_mem _ (List.mem_filter.mpr ⟨hf, hm⟩)

theorem validateFormData_isValid_isEmpty (form : FormData) (rf : List Char) :
    (validateFormData form rf).isValid = ((validateFormData form rf).errors).isEmpty := rfl

/-! ## Claim C1 -/

/-- C1 counterexample: `sanitizeString` is not idempotent.  Sanitizing the
one-character string `&` yields `&amp;`, and sanitizing that again
re-encodes the ampersand, yielding `&amp;amp;`, so the claimed identity
`sanitizeString (sanitizeString x) = sanitizeString x` fails at `x = "&"`
(a string that after one pass contains the encoded entity `&amp;`). -/
theorem sanitizeString_not_idempotent :
    ¬ (sanitizeString (sanitizeString (( "&" ).data)) = sanitizeString (( "&" ).data)) := by
  decide

/-- C1 amended: `sanitizeString` is idempotent on every string of length at
most 10000 that contains none of the five HTML-special characters
`& < > " '` (whose entity encodings are re-encoded by a second pass) and no
stripped control characters (null, `\x00`-`\x08`, `\x0B`, `\x0C`,
`\x0E`-`\x1F`, `\x7F`, whose removal can expose fresh trailing whitespace
to a second trim). -/
theorem sanitizeString_idempotent_on_plain (x : List Char)
    (hspec : ∀ c ∈ x, isHtmlSpecial c = false)
    (hctl : ∀ c ∈ x, isStrippedCtl c = false)
    (hlen : x.length ≤ 10000) :
    sanitizeString (sanitizeString x) = sanitizeString x := by
  have hx := sanitizeString_plain_eq hspec hctl hlen
  have hy_mem : ∀ c ∈ collapseWs (jsTrim x), c ∈ jsTrim x ∨ c = ' ' :=
    fun _ hc => collapseWs_mem hc
  have hys : ∀ c ∈ collapseWs (jsTrim x), isHtmlSpecial c = false := by
    intro c hc
    rcases hy_mem c hc with h | h
    · exact hspec c (mem_jsTrim h)
    · rw [h]; decide
  have hyc : ∀ c ∈ collapseWs (jsTrim x), isStrippedCtl c = false := by
    intro c hc
    rcases hy_mem c hc with h | h
    · exact hctl c (mem_jsTrim h)
    · rw [h]; decide
  have hyl : (collapseWs (jsTrim x)).length ≤ 10000 :=
    le_trans (collapseWs_length _) (le_trans (jsTrim_length_le _) hlen)
  have hy2 := sanitizeString_plain_eq hys hyc hyl
  rw [hx, hy2]
  have htrim : jsTrim (collapseWs (jsTrim x)) = collapseWs (jsTrim x) :=
    jsTrim_eq_self (fun c hc => (sanitizeString_ends_not_ws (x := x)).1 hc)
      (fun c hc => (sanitizeString_ends_not_ws (x := x)).2 hc)
  rw [htrim]
  exact collapseWs_idem _

/-- C1 witness: the amended idempotence theorem applied to the concrete
string `a  b`. -/
theorem sanitizeString_idempotent_on_plain_witness :
    ((∀ c ∈ (( "a  b" ).data), isHtmlSpecial c = false) ∧
     (∀ c ∈ (( "a  b" ).data), isStrippedCtl c = false) ∧
     (( "a  b" ).data).length ≤ 10000) ∧
    sanitizeString (sanitizeString (( "a  b" ).data)) = sanitizeString (( "a  b" ).data) :=
  ⟨⟨by decide, by decide, by decide⟩,
    sanitizeString_idempotent_on_plain _ (by decide) (by decide) (by decide)⟩

/-! ## Claim C2 -/

/-- C2: for every environment and every pair of adapter call outcomes, the
overall `success` flag of `processFormSubmission` equals the logical OR of
the per-service success flags of the configured services (an unconfigured
service contributes `false`), and when neither the record store nor the
notifier is configured the overall success is `false`. -/
theorem processFormSubmission_success_or :
    ∀ (env : EnvCfg) (subId : List Char)
      (aCall eCall : Except (List Char) ServiceResult),
      ((processFormSubmission env subId aCall eCall).success =
        ((airtableConfigured env && (runService aCall).success) ||
         (emailConfigured env && (runService eCall).success))) ∧
      (airtableConfigured env = false → emailConfigured env = false →
        (processFormSubmission env subId aCall eCall).success = false) := by
  intro env subId aCall eCall
  constructor
  · unfold processFormSubmission
    by_cases ha : airtableConfigured env = true <;>
      by_cases he : emailConfigured env = true <;>
        simp [ha, he]
  · intro ha he
    unfold processFormSubmission
    simp [ha, he]

/-- C2 witness: with no service configured the aggregate result of a
concrete dispatch is `success = false`. -/
theorem processFormSubmission_success_or_witness :
    airtableConfigured ⟨none, none, none⟩ = false ∧
    emailConfigured ⟨none, none, none⟩ = false ∧
    (processFormSubmission ⟨none, none, none⟩ (( "sub_1" ).data)
      (.ok ⟨true, none⟩) (.ok ⟨true, none⟩)).success = false :=
  ⟨rfl, rfl,
    (processFormSubmission_success_or ⟨none, none, none⟩ (( "sub_1" ).data)
      (.ok ⟨true, none⟩) (.ok ⟨true, none⟩)).2 rfl rfl⟩

/-! ## Claim C3 -/

/-- C3 counterexample: the metadata of the record handed to the record-store
adapter can come from a client-supplied form-body field.  Two request
bodies that differ only in a client-supplied field named `IP Address`
(processed with identical headers and clock by the src/index.js pipeline
and then `AirtableService.prepareAirtableData`) produce different
`IP Address` metadata in the prepared Airtable record: the client value
`9.9.9.9` displaces the header-derived `1.2.3.4`. -/
theorem airtable_metadata_client_influence :
    (prepareAirtableData
        (buildSubmission
          [((( "name" ).data), .str (( "Jo" ).data)),
           ((( "IP Address" ).data), .str (( "9.9.9.9" ).data))]
          ⟨some (( "1.2.3.4" ).data), some (( "UA" ).data), some (( "https://a.com" ).data)⟩
          (( "2026-01-01T00:00:00.000Z" ).data))
        (( "2026-01-01T00:00:00.000Z" ).data)).ipF ≠
      (prepareAirtableData
        (buildSubmission
          [((( "name" ).data), .str (( "Jo" ).data))]
          ⟨some (( "1.2.3.4" ).data), some (( "UA" ).data), some (( "https://a.com" ).data)⟩
          (( "2026-01-01T00:00:00.000Z" ).data))
        (( "2026-01-01T00:00:00.000Z" ).data)).ipF := by
  decide

/-- C3 amended: the lowercase metadata keys of the submission record built
by the pipeline (`timestamp`, `ip`, `userAgent`, `origin`) are always
overwritten from the pipeline clock and the request headers, for every
request body — so varying client fields of those names leaves them
unchanged; however the record-store adapter's prepared record prefers the
client-suppliable capitalized fields `Timestamp`, `IP Address` and
`Origin`, so its metadata is not body-independent (see the
counterexample). -/
theorem submission_metadata_from_headers :
    ∀ (body : FormData) (meta : RequestMeta) (nowIso : List Char),
      getField (buildSubmission body meta nowIso) (( "timestamp" ).data) =
        some (.str nowIso) ∧
      getField (buildSubmission body meta nowIso) (( "ip" ).data) =
        some (.str (jsOrDefault meta.ipHeader (( "unknown" ).data))) ∧
      getField (buildSubmission body meta nowIso) (( "userAgent" ).data) =
        some (.str (jsOrDefault meta.userAgentHeader (( "unknown" ).data))) ∧
      getField (buildSubmission body meta nowIso) (( "origin" ).data) =
        some (.str (jsOrDefault meta.originHeader (( "unknown" ).data))) := by
  intro body meta nowIso
  unfold buildSubmission
  refine ⟨?_, ?_, ?_, ?_⟩
  · rw [getField_setKey_ne (by decide), getField_setKey_ne (by decide),
      getField_setKey_ne (by decide), getField_setKey_same]
  · rw [getField_setKey_ne (by decide), getField_setKey_ne (by decide),
      getField_setKey_same]
  · rw [getField_setKey_ne (by decide), getField_setKey_same]
  · rw [getField_setKey_same]

/-! ## Claim C4 -/

/-- C4 counterexample: with the KV namespace configured but the store
unreachable (its `get` throws), the rate-limit check does not fail open:
the thrown error propagates out of `checkRateLimit`, reaches the outer
catch of `fetch`, and the request is answered with a 500 internal error
instead of being allowed to continue. -/
theorem rateLimit_store_error_500 :
    rateLimitGate (checkRateLimit true (.error (( "kv down" ).data)) none (some 60) 1000) =
      some 500 ∧
    rateLimitGate (checkRateLimit true (.error (( "kv down" ).data)) none (some 60) 1000) ≠
      none :=
  ⟨rfl, by decide⟩

/-- C4 amended: the rate limiter fails open only when the shared store is
not configured (the request is allowed with `remaining = -1`); when the
store is configured but unreachable, a thrown `get` error — and, on the
allow path, a thrown `put` error — propagates to the caller, where the
request is aborted with a 500 internal error rather than treated as
allowed. -/
theorem rateLimit_fail_open_unconfigured :
    (∀ (kvGet : Except (List Char) (Option (List Int)))
       (putErr : Option (List Char)) (limitEnv : Option Nat) (now : Int),
      checkRateLimit false kvGet putErr limitEnv now =
        .ok { allowed := true, remaining := -1, resetTime := -1 } ∧
      rateLimitGate (checkRateLimit false kvGet putErr limitEnv now) = none) ∧
    (∀ (e : List Char) (putErr : Option (List Char)) (limitEnv : Option Nat) (now : Int),
      checkRateLimit true (.error e) putErr limitEnv now = .error e ∧
      rateLimitGate (checkRateLimit true (.error e) putErr limitEnv now) = some 500) ∧
    (∀ (store : Option (List Int)) (e : List Char) (limitEnv : Option Nat) (now : Int),
      (rlStep limitEnv now store).1.allowed = true →
      checkRateLimit true (.ok store) (some e) limitEnv now = .error e) := by
  refine ⟨fun kvGet putErr limitEnv now => ⟨rfl, rfl⟩,
    fun e putErr limitEnv now => ⟨rfl, rfl⟩,
    fun store e limitEnv now hallow => ?_⟩
  unfold checkRateLimit
  simp [hallow]

/-- C4 witness: the amended theorem's put-failure clause applied to an
empty store at time 5 (where the check would allow the request, so the
`put` runs and its error propagates). -/
theorem rateLimit_fail_open_unconfigured_witness :
    (rlStep (some 3) 5 none).1.allowed = true ∧
    checkRateLimit true (.ok none) (some (( "kv down" ).data)) (some 3) 5 =
      .error (( "kv down" ).data) :=
  ⟨by decide,
    (rateLimit_fail_open_unconfigured).2.2 none (( "kv down" ).data) (some 3) 5 (by decide)⟩

/-! ## Claim C5 -/

/-- C5: with limit 3 and the 60000 ms window, for one client identity:
three checks within the window are allowed (with `remaining` 2, 1, 0 and
`resetTime` the call time plus the window), the fourth check within the
window is rejected with `remaining = 0` and `resetTime` equal to the oldest
surviving timestamp plus the window (the first call's timestamp + 60 s),
and a check issued after the window has elapsed since those calls is
allowed again.  (The hypothesis `0 < t0` records that wall-clock
timestamps are positive; the code reads the oldest timestamp with a
truthiness test.) -/
theorem rateLimit_window_scenario (t0 t1 t2 t3 t4 : Int)
    (hpos : 0 < t0) (h01 : t0 ≤ t1) (h12 : t1 ≤ t2) (h23 : t2 ≤ t3)
    (hwin : t3 - t0 < 60000) (hafter : 60000 ≤ t4 - t2) :
    (rlRun (some 3) [t0, t1, t2, t3, t4] none).1 =
      [{ allowed := true, remaining := 2, resetTime := t0 + 60000 },
       { allowed := true, remaining := 1, resetTime := t1 + 60000 },
       { allowed := true, remaining := 0, resetTime := t2 + 60000 },
       { allowed := false, remaining := 0, resetTime := t0 + 60000 },
       { allowed := true, remaining := 2, resetTime := t4 + 60000 }] := by
  have c10 : t1 - t0 < 60000 := by omega
  have c20 : t2 - t0 < 60000 := by omega
  have c21 : t2 - t1 < 60000 := by omega
  have c30 : t3 - t0 < 60000 := by omega
  have c31 : t3 - t1 < 60000 := by omega
  have c32 : t3 - t2 < 60000 := by omega
  have d40 : ¬ (t4 - t0 < 60000) := by omega
  have d41 : ¬ (t4 - t1 < 60000) := by omega
  have d42 : ¬ (t4 - t2 < 60000) := by omega
  have hz : ¬ (t0 = 0) := by omega
  have f1 : rlStep (some 3) t0 none =
      ({ allowed := true, remaining := 2, resetTime := t0 + 60000 }, some [t0]) := by
    simp [rlStep, resolveLimit]
  have f2 : rlStep (some 3) t1 (some [t0]) =
      ({ allowed := true, remaining := 1, resetTime := t1 + 60000 }, some [t0, t1]) := by
    simp [rlStep, resolveLimit, c10]
  have f3 : rlStep (some 3) t2 (some [t0, t1]) =
      ({ allowed := true, remaining := 0, resetTime := t2 + 60000 }, some [t0, t1, t2]) := by
    simp [rlStep, resolveLimit, c20, c21]
  have f4 : rlStep (some 3) t3 (some [t0, t1, t2]) =
      ({ allowed := false, remaining := 0, resetTime := t0 + 60000 }, some [t0, t1, t2]) := by
    simp [rlStep, resolveLimit, c30, c31, c32, hz]
  have f5 : rlStep (some 3) t4 (some [t0, t1, t2]) =
      ({ allowed := true, remaining := 2, resetTime := t4 + 60000 }, some [t4]) := by
    simp [rlStep, resolveLimit, d40, d41, d42]
  simp [rlRun, f1, f2, f3, f4, f5]

/-- C5 witness: the window scenario at the concrete call times 100, 200,
300, 400 (all inside one window) and 70300 (after the window). -/
theorem rateLimit_window_scenario_witness :
    ((0 : Int) < 100 ∧ (100 : Int) ≤ 200 ∧ (200 : Int) ≤ 300 ∧ (300 : Int) ≤ 400 ∧
      (400 : Int) - 100 < 60000 ∧ (60000 : Int) ≤ 70300 - 300) ∧
    (rlRun (some 3) [100, 200, 300, 400, 70300] none).1 =
      [{ allowed := true, remaining := 2, resetTime := 60100 },
       { allowed := true, remaining := 1, resetTime := 60200 },
       { allowed := true, remaining := 0, resetTime := 60300 },
       { allowed := false, remaining := 0, resetTime := 60100 },
       { allowed := true, remaining := 2, resetTime := 130300 }] :=
  ⟨⟨by decide, by decide, by decide, by decide, by decide, by decide⟩, by
    have h := rateLimit_window_scenario 100 200 300 400 70300
      (by decide) (by decide) (by decide) (by decide) (by decide) (by decide)
    simpa using h⟩

/-! ## Claim C6 -/

/-- C6: under the shared retry policy with `maxRetries = 3`: a first
attempt answered with a client-error status (400-499) is terminal and the
operation performs exactly one fetch; server-error responses on the first
two attempts followed by a success on the third return the success
response after exactly 3 fetches; after exhausting attempts, a thrown
error on the final attempt propagates as an exception, while a final
server-error response is returned as a value. -/
theorem retryRequest_policy :
    (∀ (outcomes : Nat → Except (List Char) HttpResp) (r : HttpResp),
      outcomes 1 = .ok r → 400 ≤ r.status → r.status < 500 →
      retryRequest outcomes 3 = (.ok r, 1)) ∧
    (∀ (outcomes : Nat → Except (List Char) HttpResp) (r1 r2 r3 : HttpResp),
      outcomes 1 = .ok r1 → 500 ≤ r1.status →
      outcomes 2 = .ok r2 → 500 ≤ r2.status →
      outcomes 3 = .ok r3 → 200 ≤ r3.status → r3.status < 300 →
      retryRequest outcomes 3 = (.ok r3, 3)) ∧
    (∀ (outcomes : Nat → Except (List Char) HttpResp) (e1 e2 e3 : List Char),
      outcomes 1 = .error e1 → outcomes 2 = .error e2 → outcomes 3 = .error e3 →
      retryRequest outcomes 3 = (.error e3, 3)) ∧
    (∀ (outcomes : Nat → Except (List Char) HttpResp) (r1 r2 r3 : HttpResp),
      outcomes 1 = .ok r1 → 500 ≤ r1.status →
      outcomes 2 = .ok r2 → 500 ≤ r2.status →
      outcomes 3 = .ok r3 → 500 ≤ r3.status →
      retryRequest outcomes 3 = (.ok r3, 3)) := by
  have hsrv : ∀ r : HttpResp, 500 ≤ r.status →
      respOk r = false ∧ isClientErr r = false := by
    intro r hr
    constructor <;> [skip; skip] <;> simp [respOk, isClientErr] <;> omega
  refine ⟨?_, ?_, ?_, ?_⟩
  · intro outcomes r h1 h4a h4b
    have hc : isClientErr r = true := by simp [isClientErr]; omega
    simp [retryRequest, retryGo, h1, hc]
  · intro outcomes r1 r2 r3 h1 hs1 h2 hs2 h3 ho1 ho2
    obtain ⟨ha1, hb1⟩ := hsrv r1 hs1
    obtain ⟨ha2, hb2⟩ := hsrv r2 hs2
    have ho : respOk r3 = true := by simp [respOk]; omega
    simp [retryRequest, retryGo, h1, h2, h3, ha1, hb1, ha2, hb2, ho]
  · intro outcomes e1 e2 e3 h1 h2 h3
    simp [retryRequest, retryGo, h1, h2, h3]
  · intro outcomes r1 r2 r3 h1 hs1 h2 hs2 h3 hs3
    obtain ⟨ha1, hb1⟩ := hsrv r1 hs1
    obtain ⟨ha2, hb2⟩ := hsrv r2 hs2
    obtain ⟨ha3, hb3⟩ := hsrv r3 hs3
    simp [retryRequest, retryGo, h1, h2, h3, ha1, hb1, ha2, hb2, ha3, hb3]

/-- C6 witness: the four retry clauses at concrete outcome sequences — a
404 on the first attempt (one fetch), 503/503/200 (three fetches ending in
success), three thrown errors (final exception propagated), and 500 on all
attempts (final error response returned as a value). -/
theorem retryRequest_policy_witness :
    retryRequest (fun _ => .ok ⟨404⟩) 3 = (.ok ⟨404⟩, 1) ∧
    retryRequest (fun i => if i = 3 then .ok ⟨200⟩ else .ok ⟨503⟩) 3 = (.ok ⟨200⟩, 3) ∧
    retryRequest (fun _ => .error (( "network down" ).data)) 3 =
      (.error (( "network down" ).data), 3) ∧
    retryRequest (fun _ => .ok ⟨500⟩) 3 = (.ok ⟨500⟩, 3) :=
  ⟨retryRequest_policy.1 (fun _ => .ok ⟨404⟩) ⟨404⟩ rfl (by decide) (by decide),
   retryRequest_policy.2.1 (fun i => if i = 3 then .ok ⟨200⟩ else .ok ⟨503⟩)
     ⟨503⟩ ⟨503⟩ ⟨200⟩ rfl (by decide) rfl (by decide) rfl (by decide) (by decide),
   retryRequest_policy.2.2.1 (fun _ => .error (( "network down" ).data))
     (( "network down" ).data) (( "network down" ).data) (( "network down" ).data)
     rfl rfl rfl,
   retryRequest_policy.2.2.2 (fun _ => .ok ⟨500⟩) ⟨500⟩ ⟨500⟩ ⟨500⟩
     rfl (by decide) rfl (by decide) rfl (by decide)⟩

/-! ## Claim C7 -/

/-- C7 counterexample: anti-forgery validation can return true for a
non-identical pair of present tokens.  With header token `abc` and a
`__Host-csrf-token` cookie whose value is `abc=def`, the code compares the
header against `cookie.split('=')[1]`, i.e. only the segment before the
cookie value's own first `=`; the tokens `abc` and `abc=def` are not
identical, yet validation succeeds. -/
theorem validateCsrfToken_split_trunc :
    specCookieToken (( "__Host-csrf-token=abc=def" ).data) = some (( "abc=def" ).data) ∧
    (( "abc=def" ).data ≠ ( "abc" ).data) ∧
    validateCsrfToken (some (( "abc" ).data))
      (some (( "__Host-csrf-token=abc=def" ).data)) = true := by
  refine ⟨by decide, by decide, by decide⟩

/-- C7 amended: validation returns false whenever the header token or the
`Cookie` header is absent or empty, and also whenever the `Cookie` header
contains no `__Host-csrf-token` cookie; and for every request whose
`__Host-csrf-token` cookie value contains no `=`, validation returns true
iff the header token is non-empty and exactly equal to that cookie value
(so any non-identical such pair is rejected).  Cookie values containing
`=` are compared only up to their first `=` (see the counterexample). -/
theorem validateCsrfToken_equality :
    (∀ ck, validateCsrfToken none ck = false) ∧
    (∀ h, validateCsrfToken h none = false) ∧
    (∀ ck, validateCsrfToken (some []) ck = false) ∧
    (∀ h, validateCsrfToken h (some []) = false) ∧
    (∀ (h ck : List Char), specCookieToken ck = none →
      validateCsrfToken (some h) (some ck) = false) ∧
    (∀ (h ck v : List Char), specCookieToken ck = some v → (∀ c ∈ v, c ≠ '=') →
      (validateCsrfToken (some h) (some ck) = true ↔ (h ≠ [] ∧ h = v))) := by
  refine ⟨?_, ?_, ?_, ?_, ?_, ?_⟩
  · intro ck
    cases ck <;> rfl
  · intro h
    cases h <;> rfl
  · intro ck
    cases ck with
    | none => rfl
    | some l => simp [validateCsrfToken]
  · intro h
    cases h with
    | none => rfl
    | some l => simp [validateCsrfToken]
  · intro h ck hnone
    have hF : ((splitOnChar ';' ck).map jsTrim).find?
        (fun c => startsWithList c csrfMark) = none := by
      cases hF : ((splitOnChar ';' ck).map jsTrim).find?
          (fun c => startsWithList c csrfMark) with
      | none => rfl
      | some c =>
        unfold specCookieToken at hnone
        rw [hF] at hnone
        simp at hnone
    unfold validateCsrfToken
    by_cases hie : (h.isEmpty || ck.isEmpty) = true
    · simp [hie]
    · simp [hie, hF]
  · intro h ck v hspec hnoeq
    have hFind := hspec
    unfold specCookieToken at hFind
    cases hF : ((splitOnChar ';' ck).map jsTrim).find?
        (fun c => startsWithList c csrfMark) with
    | none => rw [hF] at hFind; simp at hFind
    | some c =>
      rw [hF] at hFind
      simp only [Option.some.injEq] at hFind
      have hstarts : startsWithList c csrfMark = true := by
        have hp := List.find?_some hF
        simpa using hp
      have hcs : c = csrfMark ++ c.drop csrfMark.length :=
        startsWith_append csrfMark c hstarts
      have hcv : c = csrfMark ++ v := by rw [hcs, hFind]
      have hck : ck ≠ [] := by
        intro hck0
        subst hck0
        rw [show ((splitOnChar ';' ([] : List Char)).map jsTrim).find?
            (fun c => startsWithList c csrfMark) = none by decide] at hF
        cases hF
      have hmark : csrfMark = ( "__Host-csrf-token" ).data ++ '=' :: [] := by decide
      have hname : ∀ c2 ∈ ( "__Host-csrf-token" ).data, c2 ≠ '=' := by decide
      have hcv2 : c = ( "__Host-csrf-token" ).data ++ ('=' :: v) := by
        rw [hcv, hmark, List.append_assoc]
        rfl
      have hsplit : splitOnChar '=' c = [( "__Host-csrf-token" ).data, v] := by
        rw [hcv2, splitOnChar_append v hname, splitOnChar_no_sep hnoeq]
      by_cases hh : h = []
      · subst hh
        simp [validateCsrfToken]
      · have hhe : h.isEmpty = false := by
          cases h with
          | nil => exact absurd rfl hh
          | cons a t => rfl
        have hcke : ck.isEmpty = false := by
          cases ck with
          | nil => exact absurd rfl hck
          | cons a t => rfl
        unfold validateCsrfToken
        simp [hhe, hcke, hF, hsplit, hh]

/-- C7 witness: the amended no-cookie clause applied to a Cookie header
that carries only an unrelated cookie, and the equality clause applied to
a concrete matching header/cookie pair whose cookie value contains no
`=`. -/
theorem validateCsrfToken_equality_witness :
    (specCookieToken (( "session=xyz" ).data) = none ∧
      validateCsrfToken (some (( "tok123" ).data)) (some (( "session=xyz" ).data)) = false) ∧
    (specCookieToken (( "__Host-csrf-token=tok123" ).data) = some (( "tok123" ).data) ∧
     (∀ c ∈ (( "tok123" ).data), c ≠ '=')) ∧
    (validateCsrfToken (some (( "tok123" ).data))
        (some (( "__Host-csrf-token=tok123" ).data)) = true ↔
      ((( "tok123" ).data) ≠ [] ∧ ( "tok123" ).data = ( "tok123" ).data)) :=
  ⟨⟨by decide,
      validateCsrfToken_equality.2.2.2.2.1 (( "tok123" ).data) (( "session=xyz" ).data)
        (by decide)⟩,
    ⟨by decide, by decide⟩,
    validateCsrfToken_equality.2.2.2.2.2 (( "tok123" ).data)
      (( "__Host-csrf-token=tok123" ).data) (( "tok123" ).data) (by decide) (by decide)⟩

/-! ## Claim C8 -/

/-- C8: origin policy.  (i) For every allow-list configuration containing
the entry `*`, `validateOrigin` returns true for every non-empty origin.
(ii) For an allow-list consisting of one dot-suffix entry (no commas, no
surrounding whitespace), `validateOrigin` returns true exactly when the
origin ends with that suffix.  (iii) An absent origin header is never
allowed, whatever the allow-list. -/
theorem validateOrigin_policy :
    (∀ (cfg : Option (List Char)) (o : List Char),
      (( "*" ).data) ∈ parseAllowed cfg → o ≠ [] →
      validateOrigin (some o) cfg = true) ∧
    (∀ (o s : List Char), startsWithList s (( "." ).data) = true →
      (∀ c ∈ s, c ≠ ',') → jsTrim s = s →
      validateOrigin (some o) (some s) = endsWithList o s) ∧
    (∀ cfg, validateOrigin none cfg = false) := by
  refine ⟨?_, ?_, fun cfg => rfl⟩
  · intro cfg o hmem hne
    have hoe : o.isEmpty = false := by
      cases o with
      | nil => exact absurd rfl hne
      | cons a t => rfl
    have hcont : (parseAllowed cfg).contains (( "*" ).data) = true := List.elem_iff.mpr hmem
    unfold validateOrigin
    simp [hoe, hcont]
    exact Or.inl hmem
  · intro o s hdot hnoc htrim
    obtain ⟨a, t, rfl⟩ : ∃ a t, s = a :: t := by
      cases s with
      | nil => simp [startsWithList] at hdot
      | cons a t => exact ⟨a, t, rfl⟩
    have ha : a = '.' := by
      have hd2 : (a == '.') = true ∧ startsWithList t [] = true := by
        simpa [startsWithList] using hdot
      simpa using hd2.1
    subst ha
    have hpa : parseAllowed (some ('.' :: t)) = ['.' :: t] := by
      simp [parseAllowed, splitOnChar_no_sep hnoc, htrim]
    have hstar : ((( "*" ).data) ∈ (['.' :: t] : List (List Char))) = False := by
      simp only [List.mem_singleton, eq_iff_iff, iff_false]
      intro hq
      injection hq with h1 h2
      exact absurd h1 (by decide)
    by_cases ho : o = []
    · subst ho
      have hrhs : endsWithList [] ('.' :: t) = false := by
        simp [endsWithList]
      rw [hrhs]
      rfl
    · have hoe : o.isEmpty = false := by
        cases o with
        | nil => exact absurd rfl ho
        | cons b u => rfl
      by_cases hos : o = '.' :: t
      · subst hos
        have hrhs : endsWithList ('.' :: t) ('.' :: t) = true := by
          simp [endsWithList]
        rw [hrhs]
        unfold validateOrigin
        simp [hoe, hpa, hstar, List.contains, List.elem]
      · unfold validateOrigin isSubdomainAllowed
        simp only [hpa, hoe]
        have hcstar : (['.' :: t] : List (List Char)).contains (( "*" ).data) = false := by
          cases hq : (['.' :: t] : List (List Char)).contains (( "*" ).data) with
          | false => rfl
          | true =>
            have := List.elem_iff.mp hq
            rw [hstar] at this
            exact this.elim
        have hco : (['.' :: t] : List (List Char)).contains o = false := by
          cases hq : (['.' :: t] : List (List Char)).contains o with
          | false => rfl
          | true =>
            have hmem2 := List.elem_iff.mp hq
            rw [List.mem_singleton] at hmem2
            exact absurd hmem2 hos
        simp [hcstar, hco, List.any_cons, List.any_nil, hos, hdot,
          show (('.' :: t : List Char) == ( "*" ).data) = false by
            cases hq : (('.' :: t : List Char) == ( "*" ).data) with
            | false => rfl
            | true =>
              simp only [beq_iff_eq] at hq
              injection hq with h1 h2
              exact absurd h1 (by decide),
          show ((o : List Char) == '.' :: t) = false by
            cases hq : ((o : List Char) == '.' :: t) with
            | false => rfl
            | true => exact absurd (by simpa using hq) hos,
          show startsWithList ('.' :: t) (( "." ).data) = true by
            simp [startsWithList]]

/-- C8 witness: the wildcard clause at a concrete configuration and origin,
and the suffix clause at `.example.com` with a matching and a
non-matching origin. -/
theorem validateOrigin_policy_witness :
    ((( "*" ).data ∈ parseAllowed (some (( "https://a.com, *" ).data))) ∧
      validateOrigin (some (( "https://x.y" ).data)) (some (( "https://a.com, *" ).data)) = true) ∧
    (validateOrigin (some (( "https://a.example.com" ).data))
        (some (( ".example.com" ).data)) =
      endsWithList (( "https://a.example.com" ).data) (( ".example.com" ).data)) ∧
    validateOrigin none (some (( "*" ).data)) = false :=
  ⟨⟨by decide,
      validateOrigin_policy.1 (some (( "https://a.com, *" ).data)) (( "https://x.y" ).data)
        (by decide) (by decide)⟩,
    validateOrigin_policy.2.1 (( "https://a.example.com" ).data) (( ".example.com" ).data)
      (by decide) (by decide) (by decide),
    validateOrigin_policy.2.2 (some (( "*" ).data))⟩

/-! ## Claim C9 -/

/-- C9: validation postconditions.  (i) `{email: "not-an-email"}` with
required field `email` is invalid with the error `Invalid email format`.
(ii) `{email: "a@b.co", name: "Jo"}` with required fields `email,name` is
valid.  (iii) For every required field name that is absent from the form
data, or present only as a string whose trimmed value is empty, the error
list contains `<field> is required`. -/
theorem validateFormData_postconditions :
    ((validateFormData [((( "email" ).data), .str (( "not-an-email" ).data))]
        (( "email" ).data)).isValid = false ∧
      ( "Invalid email format" ).data ∈
        (validateFormData [((( "email" ).data), .str (( "not-an-email" ).data))]
          (( "email" ).data)).errors) ∧
    (validateFormData [((( "email" ).data), .str (( "a@b.co" ).data)),
        ((( "name" ).data), .str (( "Jo" ).data))] (( "email,name" ).data)).isValid = true ∧
    (∀ (form : FormData) (rf f : List Char),
      f ∈ parseRequired rf →
      (getField form f = none ∨ ∃ s, getField form f = some (.str s) ∧ jsTrim s = []) →
      (f ++ ( " is required" ).data) ∈ (validateFormData form rf).errors) := by
  refine ⟨⟨by decide, by decide⟩, by decide, ?_⟩
  intro form rf f hreq habs
  have hmiss : isMissingRequired form f = true := by
    rcases habs with hnone | ⟨s, hget, htrim⟩
    · simp [isMissingRequired, hnone]
    · simp [isMissingRequired, hget, toStr, htrim, jsTruthy]
  exact required_error_mem hreq hmiss

/-- C9 witness: the required-field clause applied to an empty form with
required field `email`. -/
theorem validateFormData_postconditions_witness :
    ((( "email" ).data ∈ parseRequired (( "email" ).data)) ∧
      getField [] (( "email" ).data) = none) ∧
    (( "email" ).data ++ ( " is required" ).data) ∈
      (validateFormData [] (( "email" ).data)).errors :=
  ⟨⟨by decide, rfl⟩,
    validateFormData_postconditions.2.2 [] (( "email" ).data) (( "email" ).data)
      (by decide) (Or.inl rfl)⟩

/-! ## Claim C10 -/

/-- C10: the required-field check treats every JavaScript-falsy value as
absent.  For a required field supplied as the number `0` or the boolean
`false` — both present, and both with a non-empty trimmed string
representation (`"0"`, `"false"`) — `validateFormData` still reports
`<field> is required` and returns `isValid = false`. -/
theorem validateFormData_falsy_required :
    ∀ (form : FormData) (rf f : List Char) (v : JVal),
      f ∈ parseRequired rf →
      getField form f = some v →
      (v = .num 0 ∨ v = .jbool false) →
      (jsTrim (toStr v)).isEmpty = false ∧
      (f ++ ( " is required" ).data) ∈ (validateFormData form rf).errors ∧
      (validateFormData form rf).isValid = false := by
  intro form rf f v hreq hget hv
  have hmiss : isMissingRequired form f = true := by
    rcases hv with rfl | rfl <;> simp [isMissingRequired, hget, jsTruthy]
  have hmem := required_error_mem hreq hmiss
  refine ⟨?_, hmem, ?_⟩
  · rcases hv with rfl | rfl <;> decide
  · rw [validateFormData_isValid_isEmpty]
    exact list_isEmpty_false_of_mem hmem

/-- C10 witness: a form whose required field `name` carries the number `0`
is rejected as missing despite the non-empty string representation. -/
theorem validateFormData_falsy_required_witness :
    ((( "name" ).data ∈ parseRequired (( "name" ).data)) ∧
      getField [((( "name" ).data), .num 0)] (( "name" ).data) = some (.num 0)) ∧
    ((jsTrim (toStr (.num 0))).isEmpty = false ∧
      (( "name" ).data ++ ( " is required" ).data) ∈
        (validateFormData [((( "name" ).data), .num 0)] (( "name" ).data)).errors ∧
      (validateFormData [((( "name" ).data), .num 0)] (( "name" ).data)).isValid = false) :=
  ⟨⟨by decide, by decide⟩,
    validateFormData_falsy_required [((( "name" ).data), .num 0)] (( "name" ).data)
      (( "name" ).data) (.num 0) (by decide) (by decide) (Or.inl rfl)⟩

end FormHandler
